import Mathlib

/-!
Shallow embedding of the WhatsApp-automation script (the second, current
version of `Final_Chrome WA_AUTO.py` in the repository) and proofs about it.

Python strings are modelled as Lean `String`, dictionaries as association
lists with insert-or-overwrite semantics, wall-clock times as naturals, and
the external Selenium surface as explicit oracles giving the outcome of each
external call.  `sys.exit` is modelled as a distinguished terminal result.
-/

set_option maxRecDepth 10000

/-- Python `str.strip()` on a list of characters: drop whitespace from both
ends. -/
def pyStripL (l : List Char) : List Char :=
  ((l.dropWhile Char.isWhitespace).reverse.dropWhile Char.isWhitespace).reverse

/-- Python `str.strip()`. -/
def pyStrip (s : String) : String :=
  String.mk (pyStripL s.data)

/-- The contact name computed by `main`: `f"{row['First Name']} ".strip()`. -/
def mainName (firstName : String) : String :=
  pyStrip (firstName ++ " ")

/-- Does `l` start with the pattern `p`?  (Helper for Python's `in` on
strings.) -/
def beginsWith : List Char → List Char → Bool
  | _, [] => true
  | [], _ :: _ => false
  | a :: l, b :: p => a == b && beginsWith l p

/-- Python's substring test `p in l` over character lists. -/
def containsSeq (p : List Char) : List Char → Bool
  | [] => p.isEmpty
  | a :: l => beginsWith (a :: l) p || containsSeq p l

/-- Python `pat in hay` for strings. -/
def strIn (pat hay : String) : Bool :=
  containsSeq pat.data hay.data

/-- Python `str.lower()` (ASCII-adequate). -/
def lowerStr (s : String) : String :=
  String.mk (s.data.map Char.toLower)

/-- Association-list lookup, first match wins (Python `dict` access). -/
def lookupA (k : String) : List (String × α) → Option α
  | [] => none
  | (k', v) :: t => if k' = k then some v else lookupA k t

/-- Association-list insert-or-overwrite, keeping the original position on
overwrite (Python `d[k] = v`). -/
def dinsert (k : String) (v : α) : List (String × α) → List (String × α)
  | [] => [(k, v)]
  | (k', v') :: t => if k' = k then (k, v) :: t else (k', v') :: dinsert k v t

/-- Core of `ContactManager.clean_phone_number` on the filtered character
list: if it starts with `'+'`, `cleaned.find('0', 1)` locates the first zero
at position ≥ 1 (the prefix before it is the "country code"; when there is
no such zero the whole string is kept), and the leading zeros of the
remainder are stripped; otherwise leading zeros are stripped. -/
def cleanPhoneCore (cleaned : List Char) : List Char :=
  if cleaned.head? = some '+' then
    match (cleaned.drop 1).findIdx? (fun c => c = '0') with
    | some k => cleaned.take (k + 1) ++ (cleaned.drop (k + 1)).dropWhile (fun c => c = '0')
    | none => cleaned
  else cleaned.dropWhile (fun c => c = '0')

/-- `ContactManager.clean_phone_number`, translated statement by statement:
keep digits and plus signs, then strip leading zeros after the country
code. -/
def clean_phone_number (number : String) : String :=
  String.mk (cleanPhoneCore (number.data.filter (fun c => c.isDigit || c = '+')))

/-- The fixed session-fatal message signatures tested (lower-cased) inside
`safe_element_interaction` and `send_message`. -/
def criticalSignatures : List String :=
  [ "failed to establish a new connection"
  , "max retries exceeded"
  , "actively refused"
  , "invalid session id"
  , "browser has closed the connection"
  , "not connected to devtools" ]

/-- The critical-error test of `safe_element_interaction`: does the
lower-cased fault message contain one of the session-fatal signatures? -/
def isCriticalError (msg : String) : Bool :=
  criticalSignatures.any (fun sig => strIn sig (lowerStr msg))

/-- The spec's `FaultVerdict` enumeration. -/
inductive FaultVerdict where
  | transient
  | sessionFatal
  | unrecoverable
deriving DecidableEq

/-- The spec's `ErrorClassifier.classify`, read off the except-branch of
`safe_element_interaction`: messages matching a session-fatal signature take
the restart-or-exit branch (`SessionFatal`); every other caught fault takes
the retry branch (`Transient`). -/
def classify (msg : String) : FaultVerdict :=
  if isCriticalError msg then .sessionFatal else .transient

section StringLemmas

theorem beginsWith_iff (p : List Char) : ∀ l : List Char,
    beginsWith l p = true ↔ ∃ t, l = p ++ t := by
  induction p with
  | nil => intro l; simp [beginsWith]
  | cons b q ih =>
    intro l
    cases l with
    | nil => simp [beginsWith]
    | cons a m =>
      simp only [beginsWith, Bool.and_eq_true, beq_iff_eq, ih, List.cons_append,
        List.cons.injEq]
      constructor
      · rintro ⟨rfl, t, rfl⟩; exact ⟨t, rfl, rfl⟩
      · rintro ⟨t, rfl, rfl⟩; exact ⟨rfl, t, rfl⟩

theorem containsSeq_iff (p : List Char) : ∀ l : List Char,
    containsSeq p l = true ↔ ∃ l₁ l₂, l = l₁ ++ p ++ l₂ := by
  intro l
  induction l with
  | nil =>
    simp only [containsSeq, List.isEmpty_iff]
    constructor
    · rintro rfl; exact ⟨[], [], rfl⟩
    · rintro ⟨l₁, l₂, h⟩
      rcases List.append_eq_nil.mp h.symm with ⟨h1, h2⟩
      exact (List.append_eq_nil.mp h1).2
  | cons a m ih =>
    simp only [containsSeq, Bool.or_eq_true, beginsWith_iff, ih]
    constructor
    · rintro (⟨t, ht⟩ | ⟨l₁, l₂, rfl⟩)
      · exact ⟨[], t, by simpa using ht⟩
      · exact ⟨a :: l₁, l₂, rfl⟩
    · rintro ⟨l₁, l₂, h⟩
      cases l₁ with
      | nil => exact Or.inl ⟨l₂, by simpa using h⟩
      | cons x xs =>
        rw [List.cons_append] at h
        injection h with h1 h2
        exact Or.inr ⟨xs, l₂, h2⟩

theorem dropWhile_ws_space (x : List Char) :
    List.dropWhile Char.isWhitespace (' ' :: x) = List.dropWhile Char.isWhitespace x := by
  rw [List.dropWhile_cons]
  simp [show Char.isWhitespace ' ' = true from by decide]

theorem pyStripL_concat_space (l : List Char) :
    pyStripL (l ++ [' ']) = pyStripL l := by
  unfold pyStripL
  rw [List.dropWhile_append]
  by_cases h : (List.dropWhile Char.isWhitespace l).isEmpty
  · rw [if_pos h]
    rw [List.isEmpty_iff] at h
    rw [h]
    simp [show (List.dropWhile Char.isWhitespace [' ']) = [] from by decide]
  · rw [if_neg h]
    rw [List.reverse_append]
    simp [dropWhile_ws_space]

theorem mainName_eq_pyStrip (s : String) : mainName s = pyStrip s := by
  have h : (s ++ " ").data = s.data ++ [' '] := by
    rw [String.data_append]
  simp only [mainName, pyStrip, h, pyStripL_concat_space]

end StringLemmas

/-- `Config.MAX_RETRIES` of the current script version. -/
def MAX_RETRIES : Nat := 5

/-- `SESSION_RESTART_INTERVAL` (seconds) of the current script version. -/
def SESSION_RESTART_INTERVAL : Nat := 1800

/-- Environment of one attempt of `safe_element_interaction`:
`refreshOk` is the result of `check_and_refresh_session` (when `false` the
code raises `WebDriverException("Session refresh failed")`), `findFault` is
`some msg` when `driver.find_element` raises a fault with message `msg`, and
`opFault` is `some msg` when the element operation (`click` / `send_keys` /
`clear`) raises a fault with message `msg`. -/
structure Attempt where
  refreshOk : Bool
  findFault : Option String
  opFault : Option String

/-- External environment of a whole `safe_element_interaction` call:
per-attempt outcomes, and the result of `refresh_session()` if it is invoked
on attempt `i` after a session-fatal fault. -/
structure SEIEnv where
  attempts : Nat → Attempt
  restartOk : Nat → Bool

/-- The fault produced by the body of one attempt of
`safe_element_interaction`, or `none` if the attempt returns `True`.  An
unrecognized action string falls through the `if`/`elif` chain and performs
no element operation. -/
def attemptFault (action : String) (a : Attempt) : Option String :=
  if a.refreshOk = false then some "Session refresh failed"
  else
    match a.findFault with
    | some m => some m
    | none =>
      if action = "click" || action = "send_keys" || action = "clear" then a.opFault
      else none

/-- Outcome of a `safe_element_interaction` call: returned `True`, returned
`False`, or called `sys.exit(1)`. -/
inductive SEIResult where
  | success
  | failure
  | terminated
deriving DecidableEq

/-- Result of a `safe_element_interaction` call together with the number of
loop iterations (attempts) consumed and the number of `refresh_session`
restarts attempted from the except-branch. -/
structure SEIRun where
  result : SEIResult
  attemptsUsed : Nat
  restartsAttempted : Nat
deriving DecidableEq

/-- The retry loop of `safe_element_interaction`, by remaining fuel:
`fuel` is the number of loop iterations still available (so the current
attempt is the last one exactly when `fuel = 1`), `i` the current attempt
index.  On a session-fatal fault the code attempts `refresh_session()` once:
success executes `continue` (moving to the next iteration of the same
`range(MAX_RETRIES)` loop), failure executes `sys.exit(1)`.  On any other
caught fault the last iteration returns `False`, otherwise the loop sleeps
and retries. -/
def seiAux (action : String) (env : SEIEnv) (i : Nat) : Nat → SEIRun
  | 0 => ⟨.failure, 0, 0⟩
  | fuel + 1 =>
    match attemptFault action (env.attempts i) with
    | none => ⟨.success, 1, 0⟩
    | some msg =>
      if isCriticalError msg then
        if env.restartOk i then
          let r := seiAux action env (i + 1) fuel
          ⟨r.result, r.attemptsUsed + 1, r.restartsAttempted + 1⟩
        else ⟨.terminated, 1, 1⟩
      else
        -- on the last attempt (fuel = 0) the recursion yields the loop's
        -- fall-through `return False` with no further attempt, so this
        -- uniform recursion is exactly `if attempt == MAX_RETRIES - 1:
        -- return False / else: sleep and retry`
        let r := seiAux action env (i + 1) fuel
        ⟨r.result, r.attemptsUsed + 1, r.restartsAttempted⟩

/-- `MessageSender.safe_element_interaction` of the current script version. -/
def safe_element_interaction (action : String) (env : SEIEnv) : SEIRun :=
  seiAux action env 0 MAX_RETRIES

/-- A `CheckpointRecord` as stored in `progress.json` by `save_progress`:
the keys `name`, `message` and `index` under the phone-number key. -/
structure Rec where
  name : String
  message : String
  index : Nat
deriving DecidableEq

/-- One row of the contacts table after `load_contacts` (columns
`First Name`, `Mobile Phone`, `Message`). -/
structure Row where
  firstName : String
  mobilePhone : String
  message : String
deriving DecidableEq

/-- `ContactManager.load_progress`: the persisted file is modelled as
`Option` of the keyed map it holds; a missing file yields the empty map. -/
def load_progress (file : Option (List (String × Rec))) : List (String × Rec) :=
  match file with
  | some d => d
  | none => []

/-- `ContactManager.save_progress`: `progress_data[phone] = {name, message,
index}`, then the whole map is written to the file; the function returns the
updated map, which is both the new in-memory state and the new file
content. -/
def save_progress (progress : List (String × Rec)) (index : Nat)
    (name phone message : String) : List (String × Rec) :=
  dinsert phone ⟨name, message, index⟩ progress

/-- `ContactManager.compare_with_excel`: classify each row as a match
(checkpoint record present with identical name and message) or a mismatch
with the reason string used by the source. -/
def compare_with_excel (progress : List (String × Rec)) :
    List Row → List (String × String) × List (String × String × String)
  | [] => ([], [])
  | row :: rest =>
    let name := pyStrip row.firstName
    let phone := clean_phone_number row.mobilePhone
    let r := compare_with_excel progress rest
    match lookupA phone progress with
    | some e =>
      if e.name = name ∧ e.message = row.message then ((name, phone) :: r.1, r.2)
      else (r.1, (name, phone, "Message or name changed") :: r.2)
    | none => (r.1, (name, phone, "Not in progress file") :: r.2)

/-- Session-error test used by the `except` handler inside the main loop
(around `send_message`). -/
def isMainSessionErr (msg : String) : Bool :=
  strIn "invalid session id" (lowerStr msg) ||
  strIn "browser has closed the connection" (lowerStr msg)

/-- Outcome of one `message_sender.send_message` call as seen by `main`. -/
inductive DeliverOutcome where
  | success
  | failure
  | raised (msg : String)

/-- External environment of the main loop: the outcome of the delivery of
item `k`, whether the session restart performed at iteration `k` (if any)
re-initializes successfully, the wall-clock value (seconds, as naturals)
read at iteration `k`'s restart check, and the wall-clock value read when a
restart completing at iteration `k` stamps the new session start. -/
structure MainEnv where
  deliver : Nat → DeliverOutcome
  restartOk : Nat → Bool
  clockCheck : Nat → Nat
  clockRestart : Nat → Nat

/-- In-memory state of `main`'s contact loop: the `sent_numbers` set, the
progress map, the three outcome dictionaries, the session start timestamp,
and (instrumentation) the list of phones for which `send_message` was
actually invoked, in call order. -/
structure LoopState where
  sent : List String
  progress : List (String × Rec)
  successful : List (String × String)
  failed : List (String × String × String)
  skipped : List (String × String × String)
  sessionStart : Nat
  attempts : List String
deriving DecidableEq

/-- Initial loop state: `successful/failed/skipped` empty, no deliveries
attempted yet; `sent` and `progress` are whatever the pre-loop interaction
left them as. -/
def mkInit (sent : List String) (progress : List (String × Rec))
    (sessionStart : Nat) : LoopState :=
  ⟨sent, progress, [], [], [], sessionStart, []⟩

/-- Does the progress map hold a record for `phone` with exactly this name
and message (the skip test at the top of the loop body)? -/
def progressMatch (progress : List (String × Rec)) (name message phone : String) : Bool :=
  match lookupA phone progress with
  | some r => r.name = name && r.message = message
  | none => false

/-- Mark an item Skipped: `skipped_sends[phone] = entry`. -/
def withSkip (phone : String) (entry : String × String) (st : LoopState) : LoopState :=
  { st with skipped := dinsert phone entry st.skipped }

/-- The `try`/`except` around `send_message` in the loop body, acting on the
state `st1` in which the item's phone was already added to `sent_numbers`
and the delivery attempt recorded: success stores the name and persists the
checkpoint record; returning `False` records the fixed failure reason; a
raised fault either flags a session restart (performed by the `finally`
block, `false` models the `break` after a failed re-initialization) or
records the error reason. -/
def deliverStep (env : MainEnv) (k : Nat) (name phone message : String)
    (st1 : LoopState) : LoopState × Bool :=
  match env.deliver k with
  | .success =>
    ({ st1 with
        successful := dinsert phone name st1.successful,
        progress := dinsert phone ⟨name, message, k⟩ st1.progress }, true)
  | .failure =>
    let f := dinsert phone (name, "Failed to send message - Element interaction failed") st1.failed
    ({ st1 with failed := f }, true)
  | .raised msg =>
    if isMainSessionErr msg then
      -- need_restart from the session-error test: finally restarts
      if env.restartOk k then ({ st1 with sessionStart := env.clockRestart k }, true)
      else (st1, false)
    else
      ({ st1 with failed := dinsert phone (name, "Error: " ++ msg) st1.failed }, true)

/-- One iteration of `main`'s contact loop, returning the new state and
whether the loop continues (`false` models the `break` after a failed
re-initialization).  Structure of the source: the restart check sets
`need_restart`; the whole body is guarded by `if not need_restart`, and the
`finally` block performs the restart when flagged.  Note that when the
restart interval has elapsed the item's body is skipped entirely. -/
def processItem (env : MainEnv) (k : Nat) (row : Row) (st : LoopState) :
    LoopState × Bool :=
  let name := mainName row.firstName
  let phone := clean_phone_number row.mobilePhone
  if SESSION_RESTART_INTERVAL ≤ env.clockCheck k - st.sessionStart then
    -- need_restart from the interval check: body skipped, finally restarts
    if env.restartOk k then ({ st with sessionStart := env.clockRestart k }, true)
    else (st, false)
  else
    if progressMatch st.progress name row.message phone then
      (withSkip phone (name, "Already processed") st, true)
    else if phone ∈ st.sent then
      (withSkip phone (name, "Message already sent previously") st, true)
    else
      let st1 := { st with sent := phone :: st.sent, attempts := st.attempts ++ [phone] }
      deliverStep env k name phone row.message st1

/-- `main`'s contact loop over the remaining rows, `k` being the DataFrame
index of the first of them. -/
def runLoop (env : MainEnv) : List Row → Nat → LoopState → LoopState
  | [], _, st => st
  | row :: rest, k, st =>
    let s := processItem env k row st
    if s.2 then runLoop env rest (k + 1) s.1 else s.1

/-- Events of the message-body part of `send_message` (everything after the
message box is cleared): copying line `i` to the clipboard via
`execute_script`, pasting it (Ctrl+V), typing the whole line
(`fb = true` marks the exception-triggered fallback method), typing
character `j` of line `i`, injecting a line break (Shift+Enter), and the
final Enter.  Each carries the boolean outcome of the call. -/
inductive MEv where
  | setClip (i : Nat)
  | paste (i : Nat)
  | typeLine (i : Nat) (fb : Bool)
  | typeChar (i : Nat) (j : Nat)
  | newline (i : Nat) (fb : Bool)
  | submit (fb : Bool)
deriving DecidableEq

/-- External environment of the message body: the outcome of each
`safe_element_interaction` call (keyed by its unique event descriptor — each
descriptor is issued at most once per `send_message` call) and whether the
`execute_script` clipboard copy for line `i` succeeds (when `false`, it
raises and control jumps to the fallback method). -/
structure MsgEnv where
  act : MEv → Bool
  scr : Nat → Bool

/-- The character-by-character loop of the fallback method: each character
is sent; a failed character is logged and the loop continues. -/
def charLoop (env : MsgEnv) (i : Nat) : List Char → Nat → List (MEv × Bool)
  | [], _ => []
  | _ :: t, j =>
    (MEv.typeChar i j, env.act (MEv.typeChar i j)) :: charLoop env i t (j + 1)

/-- One non-skipped line of the fallback method: try the whole line first;
on failure, character by character. -/
def fbLine (env : MsgEnv) (i : Nat) (line : String) : List (MEv × Bool) :=
  if pyStrip line = "" then []
  else
    let r := env.act (MEv.typeLine i true)
    if r then [(MEv.typeLine i true, r)]
    else (MEv.typeLine i true, r) :: charLoop env i line.data 0

/-- The fallback (except-branch) method of `send_message`: every line typed
directly, Shift+Enter between non-last lines (failure aborts), then Enter.
Returns overall success and the trace of interaction events. -/
def fbLoop (env : MsgEnv) : List String → Nat → Bool × List (MEv × Bool)
  | [], _ =>
    let r := env.act (MEv.submit true)
    (r, [(MEv.submit true, r)])
  | line :: rest, i =>
    let t1 := fbLine env i line
    if rest.isEmpty then
      let r := env.act (MEv.submit true)
      (r, t1 ++ [(MEv.submit true, r)])
    else
      let rn := env.act (MEv.newline i true)
      if rn then
        let res := fbLoop env rest (i + 1)
        (res.1, t1 ++ (MEv.newline i true, rn) :: res.2)
      else (false, t1 ++ [(MEv.newline i true, rn)])

/-- Result of the primary (clipboard) treatment of one non-empty line:
succeeded, returned `False` out of `send_message`, or raised (the
`execute_script` failed), each with the events it performed. -/
inductive PrStep where
  | ok (t : List (MEv × Bool))
  | failed (t : List (MEv × Bool))
  | raised (t : List (MEv × Bool))

/-- Primary treatment of line `i`: empty lines are skipped; otherwise copy
to the clipboard (raising on failure), paste, and on paste failure type the
whole line, returning `False` if that also fails. -/
def prLine (env : MsgEnv) (i : Nat) (line : String) : PrStep :=
  if pyStrip line = "" then .ok []
  else
    let s := env.scr i
    if s then
      let rp := env.act (MEv.paste i)
      if rp then .ok [(MEv.setClip i, s), (MEv.paste i, rp)]
      else
        let rl := env.act (MEv.typeLine i false)
        if rl then .ok [(MEv.setClip i, s), (MEv.paste i, rp), (MEv.typeLine i false, rl)]
        else .failed [(MEv.setClip i, s), (MEv.paste i, rp), (MEv.typeLine i false, rl)]
    else .raised [(MEv.setClip i, s)]

/-- The primary (clipboard) loop of `send_message`'s message body; a raised
clipboard fault switches to the fallback method over all lines from the
start, keeping the events already performed in the trace. -/
def prLoop (env : MsgEnv) (allLines : List String) :
    List String → Nat → Bool × List (MEv × Bool)
  | [], _ =>
    let r := env.act (MEv.submit false)
    (r, [(MEv.submit false, r)])
  | line :: rest, i =>
    match prLine env i line with
    | .raised t =>
      let res := fbLoop env allLines 0
      (res.1, t ++ res.2)
    | .failed t => (false, t)
    | .ok t =>
      if rest.isEmpty then
        let r := env.act (MEv.submit false)
        (r, t ++ [(MEv.submit false, r)])
      else
        let rn := env.act (MEv.newline i false)
        if rn then
          let res := prLoop env allLines rest (i + 1)
          (res.1, t ++ (MEv.newline i false, rn) :: res.2)
        else (false, t ++ [(MEv.newline i false, rn)])

/-- The message-body part of `send_message` over an already-split list of
lines. -/
def send_message_lines (env : MsgEnv) (lines : List String) :
    Bool × List (MEv × Bool) :=
  prLoop env lines lines 0

/-- The message-body part of `send_message`: `contact_message.split('\n')`
then the primary loop with its exception-triggered fallback. -/
def send_message_body (env : MsgEnv) (message : String) :
    Bool × List (MEv × Bool) :=
  send_message_lines env (message.splitOn "\n")

theorem lookupA_dinsert_self (k : String) (v : α) :
    ∀ m : List (String × α), lookupA k (dinsert k v m) = some v := by
  intro m
  induction m with
  | nil => simp [dinsert, lookupA]
  | cons p t ih =>
    obtain ⟨k', v'⟩ := p
    by_cases h : k' = k
    · simp [dinsert, h, lookupA]
    · simp [dinsert, h, lookupA, ih]

theorem mem_of_mem_dropWhileP (p : Char → Bool) (c : Char) :
    ∀ l : List Char, c ∈ l.dropWhile p → c ∈ l := by
  intro l
  induction l with
  | nil => simp [List.dropWhile]
  | cons a t ih =>
    rw [List.dropWhile_cons]
    by_cases h : p a
    · intro hc
      simp only [h, if_pos] at hc
      exact List.mem_cons_of_mem a (ih hc)
    · simp [h]

/-- An environment for `safe_element_interaction` whose first attempt raises
a fault with message `msg` and whose later attempts succeed. -/
def envFaultThenOk (msg : String) : SEIEnv :=
  { attempts := fun i => if i = 0 then ⟨true, some msg, none⟩ else ⟨true, none, none⟩,
    restartOk := fun _ => true }

theorem attemptFault_allOk (action : String)
    (h1 : action = "click" ∨ action = "send_keys" ∨ action = "clear") :
    attemptFault action ⟨true, none, none⟩ = none := by
  rcases h1 with h | h | h <;> simp [attemptFault, h]

theorem seiAux_success (action : String) (env : SEIEnv) (i fuel : Nat)
    (h : attemptFault action (env.attempts i) = none) :
    seiAux action env i (fuel + 1) = ⟨.success, 1, 0⟩ := by
  simp [seiAux, h]

theorem seiAux_transient_step (action : String) (env : SEIEnv) (i fuel : Nat)
    (msg : String)
    (hf : attemptFault action (env.attempts i) = some msg)
    (hm : isCriticalError msg = false) :
    seiAux action env i (fuel + 1) =
      (let r := seiAux action env (i + 1) fuel;
       ⟨r.result, r.attemptsUsed + 1, r.restartsAttempted⟩) := by
  simp [seiAux, hf, hm]

theorem seiAux_fatal_step (action : String) (env : SEIEnv) (i fuel : Nat)
    (msg : String)
    (hf : attemptFault action (env.attempts i) = some msg)
    (hm : isCriticalError msg = true)
    (hr : env.restartOk i = true) :
    seiAux action env i (fuel + 1) =
      (let r := seiAux action env (i + 1) fuel;
       ⟨r.result, r.attemptsUsed + 1, r.restartsAttempted + 1⟩) := by
  simp [seiAux, hf, hm, hr]

theorem seiAux_fatal_exit (action : String) (env : SEIEnv) (i fuel : Nat)
    (msg : String)
    (hf : attemptFault action (env.attempts i) = some msg)
    (hm : isCriticalError msg = true)
    (hr : env.restartOk i = false) :
    seiAux action env i (fuel + 1) = ⟨.terminated, 1, 1⟩ := by
  simp [seiAux, hf, hm, hr]

theorem isCriticalError_iff (msg : String) :
    isCriticalError msg = true ↔
      ∃ sig ∈ criticalSignatures, ∃ l₁ l₂,
        (lowerStr msg).data = l₁ ++ sig.data ++ l₂ := by
  rw [isCriticalError, List.any_eq_true]
  constructor
  · rintro ⟨sig, hs, hc⟩
    exact ⟨sig, hs, (containsSeq_iff sig.data (lowerStr msg).data).mp hc⟩
  · rintro ⟨sig, hs, hd⟩
    exact ⟨sig, hs, (containsSeq_iff sig.data (lowerStr msg).data).mpr hd⟩

/-- Claim C2: the fault classification of `safe_element_interaction` is
total and exhaustive — a caught fault whose (lower-cased) message contains
one of the fixed session-fatal signatures is classified `SessionFatal`; a
fault matching none of them is classified `Transient` (there is no other
verdict), and a transient fault is retried: after a first faulting attempt
whose message is not session-fatal, a succeeding second attempt makes the
call return `True` (two attempts consumed, no restart). -/
theorem c2_classifier_total (msg : String) :
    (classify msg = .sessionFatal ↔
      ∃ sig ∈ criticalSignatures, ∃ l₁ l₂,
        (lowerStr msg).data = l₁ ++ sig.data ++ l₂)
    ∧ (classify msg = .sessionFatal ∨ classify msg = .transient)
    ∧ (isCriticalError msg = false →
        safe_element_interaction "click" (envFaultThenOk msg) = ⟨.success, 2, 0⟩) := by
  refine ⟨?_, ?_, ?_⟩
  · rw [← isCriticalError_iff]
    by_cases h : isCriticalError msg <;> simp [classify, h]
  · by_cases h : isCriticalError msg <;> simp [classify, h]
  · intro h
    have hf : attemptFault "click" ((envFaultThenOk msg).attempts 0) = some msg := by
      simp [envFaultThenOk, attemptFault]
    have h2 : attemptFault "click" ((envFaultThenOk msg).attempts 1) = none := by
      simp only [envFaultThenOk]
      norm_num
      exact attemptFault_allOk "click" (Or.inl rfl)
    rw [safe_element_interaction, MAX_RETRIES,
      show (5 : Nat) = 4 + 1 from rfl,
      seiAux_transient_step "click" (envFaultThenOk msg) 0 4 msg hf h]
    simp [show (4 : Nat) = 3 + 1 from rfl,
      seiAux_success "click" (envFaultThenOk msg) 1 3 h2]

/-- Witness for C2: the session-deleted fault is classified session-fatal;
the stale-element fault is classified transient and, occurring on the first
attempt with a clean second attempt, the interaction succeeds after two
attempts and no restart. -/
theorem c2_witness :
    classify "browser has closed the connection" = .sessionFatal
    ∧ classify "stale element reference" = .transient
    ∧ safe_element_interaction "click" (envFaultThenOk "stale element reference")
        = ⟨.success, 2, 0⟩ := by
  refine ⟨?_, ?_, ?_⟩
  · exact (c2_classifier_total "browser has closed the connection").1.mpr
      ⟨"browser has closed the connection", by decide,
        [], [], by decide⟩
  · exact ((c2_classifier_total "stale element reference").2.1).resolve_left (by decide)
  · exact (c2_classifier_total "stale element reference").2.2 (by decide)

/-- Claim C10: for any action string other than `"click"`, `"send_keys"`
and `"clear"`, once the session check passes and the locator resolves,
`safe_element_interaction` falls through the `if`/`elif` chain — whatever
the element operation would have done is never consulted (the environment's
`opFault` is arbitrary) — and returns `True` on the first attempt. -/
theorem c10_unknown_action (action : String) (env : SEIEnv)
    (h1 : action ≠ "click") (h2 : action ≠ "send_keys") (h3 : action ≠ "clear")
    (h4 : (env.attempts 0).refreshOk = true)
    (h5 : (env.attempts 0).findFault = none) :
    safe_element_interaction action env = ⟨.success, 1, 0⟩ := by
  have hf : attemptFault action (env.attempts 0) = none := by
    simp [attemptFault, h1, h2, h3, h4, h5]
  rw [safe_element_interaction, MAX_RETRIES, show (5 : Nat) = 4 + 1 from rfl]
  exact seiAux_success action env 0 4 hf

/-- Witness for C10: the unrecognized action `"hover"` succeeds immediately
even though the element operation oracle is set to fault. -/
theorem c10_witness :
    safe_element_interaction "hover"
      ⟨fun _ => ⟨true, none, some "boom"⟩, fun _ => true⟩ = ⟨.success, 1, 0⟩ :=
  c10_unknown_action "hover" ⟨fun _ => ⟨true, none, some "boom"⟩, fun _ => true⟩
    (by decide) (by decide) (by decide) rfl rfl

/-- An environment whose every attempt raises a session-fatal fault and
whose every restart succeeds. -/
def envAllFatal : SEIEnv :=
  ⟨fun _ => ⟨true, some "invalid session id", none⟩, fun _ => true⟩

/-- An environment whose every attempt raises a session-fatal fault and
whose restart fails. -/
def envNoRestart : SEIEnv :=
  ⟨fun _ => ⟨true, some "invalid session id", none⟩, fun _ => false⟩

/-- An environment whose every attempt raises a transient fault. -/
def envTransients : SEIEnv :=
  ⟨fun _ => ⟨true, some "element click intercepted", none⟩, fun _ => true⟩

/-- Claim C3 counterexample: a run of `safe_element_interaction` in which
every attempt raises a session-fatal fault and every `refresh_session`
restart succeeds returns `False` with all `MAX_RETRIES = 5` attempts
consumed and 5 restarts performed — the `continue` after a successful
restart advances the same `range(MAX_RETRIES)` loop, so session restarts do
consume the same attempt budget as transient retries, contrary to the
claim (no transient fault ever occurred in this run, yet the budget is
exhausted). -/
theorem c3_counterexample :
    safe_element_interaction "click" envAllFatal = ⟨.failure, 5, 5⟩
    ∧ isCriticalError "invalid session id" = true := by
  constructor <;> decide

/-- Claim C3 (amended): whenever `safe_element_interaction` catches a
session-fatal fault it attempts exactly one session restart; if the restart
succeeds the retry loop continues with the next iteration, consuming one
attempt from the same `MAX_RETRIES` budget as transient retries; if the
restart fails the process terminates immediately. -/
theorem c3_fatal_restart (action : String) (env : SEIEnv) (i fuel : Nat)
    (msg : String)
    (hf : attemptFault action (env.attempts i) = some msg)
    (hm : isCriticalError msg = true) :
    (env.restartOk i = true →
      seiAux action env i (fuel + 1) =
        (let r := seiAux action env (i + 1) fuel;
         ⟨r.result, r.attemptsUsed + 1, r.restartsAttempted + 1⟩))
    ∧ (env.restartOk i = false →
      seiAux action env i (fuel + 1) = ⟨.terminated, 1, 1⟩) :=
  ⟨fun hr => seiAux_fatal_step action env i fuel msg hf hm hr,
   fun hr => seiAux_fatal_exit action env i fuel msg hf hm hr⟩

/-- Witness for C3 (amended): with a successful restart the first fatal
attempt hands over to the remaining four attempts after one restart; with a
failing restart the call terminates the process at once. -/
theorem c3_witness :
    (seiAux "click" envAllFatal 0 (4 + 1) =
      (let r := seiAux "click" envAllFatal 1 4;
       ⟨r.result, r.attemptsUsed + 1, r.restartsAttempted + 1⟩))
    ∧ seiAux "click" envNoRestart 0 (4 + 1) = ⟨.terminated, 1, 1⟩ :=
  ⟨(c3_fatal_restart "click" envAllFatal 0 4 "invalid session id" rfl (by decide)).1 rfl,
   (c3_fatal_restart "click" envNoRestart 0 4 "invalid session id" rfl (by decide)).2 rfl⟩

theorem seiAux_all_transient (action : String) (env : SEIEnv) :
    ∀ (fuel i : Nat),
      (∀ j, i ≤ j → j < i + fuel →
        ∃ m, attemptFault action (env.attempts j) = some m ∧ isCriticalError m = false) →
      seiAux action env i fuel = ⟨.failure, fuel, 0⟩ := by
  intro fuel
  induction fuel with
  | zero => intro i _; rfl
  | succ n ih =>
    intro i h
    obtain ⟨m, hm, hcrit⟩ := h i le_rfl (by omega)
    rw [seiAux_transient_step action env i n m hm hcrit,
      ih (i + 1) (fun j h1 h2 => h j (by omega) (by omega))]

/-- The main-loop environment for C4's orchestrator conjunct: no restart is
ever due, delivery of item 0 fails and delivery of item 1 succeeds. -/
def envC4 : MainEnv :=
  ⟨fun k => if k = 0 then .failure else .success,
   fun _ => true, fun _ => 0, fun _ => 0⟩

/-- Claim C4: transient faults each consume one retry attempt and are
retried; when every attempt of a call raises a transient (non-session-fatal)
fault the call returns `False` after exactly `MAX_RETRIES` attempts without
terminating the process or restarting the session, and the orchestrator
records a failed item under the fixed failure reason and proceeds to deliver
the next item. -/
theorem c4_transient_exhaustion :
    (∀ (action : String) (env : SEIEnv),
      (∀ i, i < MAX_RETRIES →
        ∃ m, attemptFault action (env.attempts i) = some m ∧ isCriticalError m = false) →
      safe_element_interaction action env = ⟨.failure, MAX_RETRIES, 0⟩)
    ∧ runLoop envC4 [⟨"A", "111", "hello"⟩, ⟨"B", "222", "hey"⟩] 0 (mkInit [] [] 0) =
      ⟨["222", "111"], [("222", ⟨"B", "hey", 1⟩)], [("222", "B")],
       [("111", ("A", "Failed to send message - Element interaction failed"))],
       [], 0, ["111", "222"]⟩ := by
  constructor
  · intro action env h
    exact seiAux_all_transient action env MAX_RETRIES 0
      (fun j h1 h2 => h j (by simpa using h2))
  · decide

/-- Witness for C4: a call whose five attempts all raise a transient fault
returns `False` with the whole budget consumed and no restart. -/
theorem c4_witness :
    safe_element_interaction "click" envTransients = ⟨.failure, MAX_RETRIES, 0⟩ :=
  c4_transient_exhaustion.1 "click" envTransients
    (fun _ _ => ⟨"element click intercepted", rfl, by decide⟩)

theorem deliverStep_attempts (env : MainEnv) (k : Nat) (name phone message : String)
    (st1 : LoopState) :
    (deliverStep env k name phone message st1).1.attempts = st1.attempts
    ∧ (deliverStep env k name phone message st1).1.sent = st1.sent := by
  unfold deliverStep
  split <;> try exact ⟨rfl, rfl⟩
  split
  · split
    · exact ⟨rfl, rfl⟩
    · exact ⟨rfl, rfl⟩
  · exact ⟨rfl, rfl⟩

theorem processItem_attempts (env : MainEnv) (k : Nat) (row : Row) (st : LoopState) :
    ((processItem env k row st).1.attempts = st.attempts
      ∧ (processItem env k row st).1.sent = st.sent)
    ∨ (clean_phone_number row.mobilePhone ∉ st.sent
      ∧ (processItem env k row st).1.attempts
          = st.attempts ++ [clean_phone_number row.mobilePhone]
      ∧ (processItem env k row st).1.sent
          = clean_phone_number row.mobilePhone :: st.sent) := by
  simp only [processItem]
  by_cases hA : SESSION_RESTART_INTERVAL ≤ env.clockCheck k - st.sessionStart
  · rw [if_pos hA]
    by_cases hB : env.restartOk k = true
    · rw [if_pos hB]; exact Or.inl ⟨rfl, rfl⟩
    · rw [if_neg hB]; exact Or.inl ⟨rfl, rfl⟩
  · rw [if_neg hA]
    by_cases hC : progressMatch st.progress (mainName row.firstName) row.message
        (clean_phone_number row.mobilePhone) = true
    · rw [if_pos hC]; exact Or.inl ⟨rfl, rfl⟩
    · rw [if_neg hC]
      by_cases hD : clean_phone_number row.mobilePhone ∈ st.sent
      · rw [if_pos hD]; exact Or.inl ⟨rfl, rfl⟩
      · rw [if_neg hD]
        obtain ⟨e1, e2⟩ := deliverStep_attempts env k (mainName row.firstName)
          (clean_phone_number row.mobilePhone) row.message
          ({ st with sent := clean_phone_number row.mobilePhone :: st.sent, attempts := st.attempts ++ [clean_phone_number row.mobilePhone] })
        exact Or.inr ⟨hD, e1, e2⟩

theorem processItem_inv (env : MainEnv) (k : Nat) (row : Row) (st : LoopState)
    (h1 : st.attempts.Nodup) (h2 : ∀ p ∈ st.attempts, p ∈ st.sent) :
    ((processItem env k row st).1.attempts.Nodup
      ∧ ∀ p ∈ (processItem env k row st).1.attempts, p ∈ (processItem env k row st).1.sent) := by
  rcases processItem_attempts env k row st with ⟨e1, e2⟩ | ⟨hD, e1, e2⟩
  · rw [e1, e2]; exact ⟨h1, h2⟩
  · rw [e1, e2]
    have hnotin : clean_phone_number row.mobilePhone ∉ st.attempts :=
      fun hx => hD (h2 _ hx)
    constructor
    · rw [List.nodup_append]
      refine ⟨h1, List.nodup_singleton _, ?_⟩
      intro x hx hy
      rw [List.mem_singleton] at hy
      exact hnotin (hy ▸ hx)
    · intro p hp
      rcases List.mem_append.mp hp with h | h
      · exact List.mem_cons_of_mem _ (h2 p h)
      · rw [List.mem_singleton] at h
        exact h ▸ List.mem_cons_self _ _

theorem runLoop_nodup (rows : List Row) : ∀ (env : MainEnv) (k : Nat) (st : LoopState),
    st.attempts.Nodup → (∀ p ∈ st.attempts, p ∈ st.sent) →
    (runLoop env rows k st).attempts.Nodup := by
  induction rows with
  | nil => intro env k st h1 _; exact h1
  | cons row rest ih =>
    intro env k st h1 h2
    obtain ⟨g1, g2⟩ := processItem_inv env k row st h1 h2
    simp only [runLoop]
    by_cases hc : (processItem env k row st).2 = true
    · rw [if_pos hc]
      exact ih env (k + 1) _ g1 g2
    · rw [if_neg hc]
      exact g1

theorem processItem_skip_checkpoint (env : MainEnv) (k : Nat) (row : Row) (st : LoopState)
    (h1 : ¬ SESSION_RESTART_INTERVAL ≤ env.clockCheck k - st.sessionStart)
    (h2 : progressMatch st.progress (mainName row.firstName) row.message
        (clean_phone_number row.mobilePhone) = true) :
    processItem env k row st =
      (withSkip (clean_phone_number row.mobilePhone)
        (mainName row.firstName, "Already processed") st, true) := by
  unfold processItem
  rw [if_neg h1]
  simp [h2]

theorem processItem_skip_dup (env : MainEnv) (k : Nat) (row : Row) (st : LoopState)
    (h1 : ¬ SESSION_RESTART_INTERVAL ≤ env.clockCheck k - st.sessionStart)
    (h2 : progressMatch st.progress (mainName row.firstName) row.message
        (clean_phone_number row.mobilePhone) = false)
    (h3 : clean_phone_number row.mobilePhone ∈ st.sent) :
    processItem env k row st =
      (withSkip (clean_phone_number row.mobilePhone)
        (mainName row.firstName, "Message already sent previously") st, true) := by
  unfold processItem
  rw [if_neg h1]
  simp [h2, h3]

/-- The main-loop environment in which the restart interval has already
elapsed at the first iteration's check and the restart succeeds; deliveries
succeed. -/
def envRestartNow : MainEnv :=
  ⟨fun _ => .success, fun _ => true, fun _ => 1800, fun _ => 1800⟩

/-- Claim C1 counterexample: a single-item run whose item has a matching
checkpoint record, arriving when the session-restart interval has elapsed.
The loop body is skipped (`if not need_restart`), the `finally` block
restarts, and the item is never marked Skipped: the final state has an
empty `skipped_sends` even though the checkpoint matches the item — so the
claim's "the item is marked Skipped" fails in this corner. -/
theorem c1_counterexample :
    runLoop envRestartNow [⟨"A", "111", "m"⟩] 0
        (mkInit [] [("111", ⟨"A", "m", 0⟩)] 0) =
      ⟨[], [("111", ⟨"A", "m", 0⟩)], [], [], [], 1800, []⟩
    ∧ progressMatch [("111", ⟨"A", "m", 0⟩)] (mainName "A") "m"
        (clean_phone_number "111") = true := by
  constructor <;> decide

/-- Claim C1 (amended): `send_message` is invoked at most once per
normalized key in a run (the `attempts` trace has no duplicates, for any
initial `sent_numbers` and progress data); and provided the session-restart
interval has not elapsed when the item comes up, an item whose key has a
checkpoint record matching its name and message is marked Skipped
("Already processed") with no delivery attempt, and an item whose key was
already handled earlier in the run is marked Skipped ("Message already sent
previously") rather than delivered.  An item arriving when the interval has
elapsed is dropped without marking or delivery (see the counterexample). -/
theorem c1_at_most_once :
    (∀ (env : MainEnv) (rows : List Row) (k sessionStart : Nat)
        (sent : List String) (progress : List (String × Rec)),
      (runLoop env rows k (mkInit sent progress sessionStart)).attempts.Nodup)
    ∧ (∀ (env : MainEnv) (k : Nat) (row : Row) (rest : List Row) (st : LoopState),
        ¬ SESSION_RESTART_INTERVAL ≤ env.clockCheck k - st.sessionStart →
        progressMatch st.progress (mainName row.firstName) row.message
            (clean_phone_number row.mobilePhone) = true →
        runLoop env (row :: rest) k st =
          runLoop env rest (k + 1)
            (withSkip (clean_phone_number row.mobilePhone)
              (mainName row.firstName, "Already processed") st))
    ∧ (∀ (env : MainEnv) (k : Nat) (row : Row) (rest : List Row) (st : LoopState),
        ¬ SESSION_RESTART_INTERVAL ≤ env.clockCheck k - st.sessionStart →
        progressMatch st.progress (mainName row.firstName) row.message
            (clean_phone_number row.mobilePhone) = false →
        clean_phone_number row.mobilePhone ∈ st.sent →
        runLoop env (row :: rest) k st =
          runLoop env rest (k + 1)
            (withSkip (clean_phone_number row.mobilePhone)
              (mainName row.firstName, "Message already sent previously") st)) := by
  refine ⟨?_, ?_, ?_⟩
  · intro env rows k sessionStart sent progress
    exact runLoop_nodup rows env k _ List.nodup_nil (by intro p hp; cases hp)
  · intro env k row rest st h1 h2
    simp [runLoop, processItem_skip_checkpoint env k row st h1 h2]
  · intro env k row rest st h1 h2 h3
    simp [runLoop, processItem_skip_dup env k row st h1 h2 h3]

/-- The main-loop environment where no restart is ever due and deliveries
succeed. -/
def envQuiet : MainEnv :=
  ⟨fun _ => .success, fun _ => true, fun _ => 0, fun _ => 0⟩

/-- Witness for C1 (amended): the three conjuncts applied at concrete
inputs — a two-item run has a duplicate-free delivery trace; a
checkpoint-matched item is skipped as "Already processed"; an item whose
key is already in `sent_numbers` is skipped as "Message already sent
previously". -/
theorem c1_witness :
    (runLoop envQuiet [⟨"A", "111", "m"⟩, ⟨"B", "222", "m"⟩] 0
        (mkInit [] [] 0)).attempts.Nodup
    ∧ runLoop envQuiet [⟨"A", "111", "m"⟩] 0 (mkInit [] [("111", ⟨"A", "m", 0⟩)] 0) =
        runLoop envQuiet [] 1
          (withSkip "111" ("A", "Already processed") (mkInit [] [("111", ⟨"A", "m", 0⟩)] 0))
    ∧ runLoop envQuiet [⟨"A", "111", "m"⟩] 0 (mkInit ["111"] [] 0) =
        runLoop envQuiet [] 1
          (withSkip "111" ("A", "Message already sent previously") (mkInit ["111"] [] 0)) := by
  refine ⟨c1_at_most_once.1 envQuiet _ 0 0 [] [], ?_, ?_⟩
  · have h := c1_at_most_once.2.1 envQuiet 0 (Row.mk "A" "111" "m") []
      (mkInit [] [("111", ⟨"A", "m", 0⟩)] 0) (by decide) (by decide)
    simpa using h
  · have h := c1_at_most_once.2.2 envQuiet 0 (Row.mk "A" "111" "m") []
      (mkInit ["111"] [] 0) (by decide) (by decide) (by decide)
    simpa using h

/-- Claim C5 failing run: rows `A` then `B`, restart interval elapsed when
item `A` comes up, restart succeeding.  The code performs the restart and
resets the session timer (final `sessionStart` is the restart clock), but
item `A` is silently dropped: it is never delivered, skipped, failed or
recorded — only item `B` is processed — whereas the claim says the item
that triggered the restart is then processed. -/
theorem c5_dropped_item :
    runLoop envRestartNow [⟨"A", "111", "m"⟩, ⟨"B", "222", "m"⟩] 0 (mkInit [] [] 0) =
      ⟨["222"], [("222", ⟨"B", "m", 1⟩)], [("222", "B")], [], [], 1800, ["222"]⟩ := by
  decide

theorem compare_length (progress : List (String × Rec)) :
    ∀ rows : List Row,
      (compare_with_excel progress rows).1.length
        + (compare_with_excel progress rows).2.length = rows.length := by
  intro rows
  induction rows with
  | nil => rfl
  | cons row rest ih =>
    simp only [compare_with_excel]
    split
    · split
      · simp only [List.length_cons]; omega
      · simp only [List.length_cons]; omega
    · simp only [List.length_cons]; omega

theorem compare_match_mem (progress : List (String × Rec)) :
    ∀ (rows : List Row) (row : Row), row ∈ rows →
      ∀ e, lookupA (clean_phone_number row.mobilePhone) progress = some e →
        e.name = pyStrip row.firstName → e.message = row.message →
        (pyStrip row.firstName, clean_phone_number row.mobilePhone)
          ∈ (compare_with_excel progress rows).1 := by
  intro rows
  induction rows with
  | nil => intro row h; cases h
  | cons row' rest ih =>
    intro row hrow e hl hn hm
    rcases List.mem_cons.mp hrow with rfl | hrow'
    · simp only [compare_with_excel, hl]
      rw [if_pos ⟨hn, hm⟩]
      exact List.mem_cons_self _ _
    · have hmem := ih row hrow' e hl hn hm
      simp only [compare_with_excel]
      split
      · split
        · exact List.mem_cons_of_mem _ hmem
        · exact hmem
      · exact hmem

theorem compare_changed_mem (progress : List (String × Rec)) :
    ∀ (rows : List Row) (row : Row), row ∈ rows →
      ∀ e, lookupA (clean_phone_number row.mobilePhone) progress = some e →
        ¬(e.name = pyStrip row.firstName ∧ e.message = row.message) →
        (pyStrip row.firstName, clean_phone_number row.mobilePhone,
          "Message or name changed") ∈ (compare_with_excel progress rows).2 := by
  intro rows
  induction rows with
  | nil => intro row h; cases h
  | cons row' rest ih =>
    intro row hrow e hl hne
    rcases List.mem_cons.mp hrow with rfl | hrow'
    · simp only [compare_with_excel, hl]
      rw [if_neg hne]
      exact List.mem_cons_self _ _
    · have hmem := ih row hrow' e hl hne
      simp only [compare_with_excel]
      split
      · split
        · exact hmem
        · exact List.mem_cons_of_mem _ hmem
      · exact List.mem_cons_of_mem _ hmem

theorem compare_absent_mem (progress : List (String × Rec)) :
    ∀ (rows : List Row) (row : Row), row ∈ rows →
      lookupA (clean_phone_number row.mobilePhone) progress = none →
      (pyStrip row.firstName, clean_phone_number row.mobilePhone,
        "Not in progress file") ∈ (compare_with_excel progress rows).2 := by
  intro rows
  induction rows with
  | nil => intro row h; cases h
  | cons row' rest ih =>
    intro row hrow hl
    rcases List.mem_cons.mp hrow with rfl | hrow'
    · simp only [compare_with_excel, hl]
      exact List.mem_cons_self _ _
    · have hmem := ih row hrow' hl
      simp only [compare_with_excel]
      split
      · split
        · exact hmem
        · exact List.mem_cons_of_mem _ hmem
      · exact List.mem_cons_of_mem _ hmem

/-- Claim C6 counterexample: `compare_with_excel` annotates a stale record
with the reason string `"Message or name changed"` and a missing record
with `"Not in progress file"` — not the claimed `"content changed"` and
`"not previously recorded"`. -/
theorem c6_counterexample :
    compare_with_excel [("123", ⟨"A", "m", 0⟩)] [⟨"A", "123", "m2"⟩] =
      ([], [("A", "123", "Message or name changed")])
    ∧ compare_with_excel [] [⟨"A", "123", "m2"⟩] =
      ([], [("A", "123", "Not in progress file")])
    ∧ "Message or name changed" ≠ "content changed"
    ∧ "Not in progress file" ≠ "not previously recorded" := by
  refine ⟨by decide, by decide, by decide, by decide⟩

/-- Claim C6 (amended): `compare_with_excel` classifies every work item
exactly once (matches and mismatches together enumerate the rows); a row is
reported a match when a checkpoint record exists under its key with
identical name (after stripping) and message; a row whose record exists but
differs is reported a mismatch with reason `"Message or name changed"`; and
a row with no record is reported a mismatch with reason
`"Not in progress file"`. -/
theorem c6_reconcile_classification :
    (∀ (progress : List (String × Rec)) (rows : List Row),
      (compare_with_excel progress rows).1.length
        + (compare_with_excel progress rows).2.length = rows.length)
    ∧ (∀ (progress : List (String × Rec)) (rows : List Row) (row : Row), row ∈ rows →
        ∀ e, lookupA (clean_phone_number row.mobilePhone) progress = some e →
          e.name = pyStrip row.firstName → e.message = row.message →
          (pyStrip row.firstName, clean_phone_number row.mobilePhone)
            ∈ (compare_with_excel progress rows).1)
    ∧ (∀ (progress : List (String × Rec)) (rows : List Row) (row : Row), row ∈ rows →
        ∀ e, lookupA (clean_phone_number row.mobilePhone) progress = some e →
          ¬(e.name = pyStrip row.firstName ∧ e.message = row.message) →
          (pyStrip row.firstName, clean_phone_number row.mobilePhone,
            "Message or name changed") ∈ (compare_with_excel progress rows).2)
    ∧ (∀ (progress : List (String × Rec)) (rows : List Row) (row : Row), row ∈ rows →
        lookupA (clean_phone_number row.mobilePhone) progress = none →
        (pyStrip row.firstName, clean_phone_number row.mobilePhone,
          "Not in progress file") ∈ (compare_with_excel progress rows).2) :=
  ⟨compare_length, compare_match_mem, compare_changed_mem, compare_absent_mem⟩

/-- Witness for C6 (amended): the four conjuncts applied at concrete
inputs — a one-row comparison produces one classification; a fresh record
matches; a changed message is flagged `"Message or name changed"`; a
missing record is flagged `"Not in progress file"`. -/
theorem c6_witness :
    ((compare_with_excel [] [⟨"A", "123", "m"⟩]).1.length
      + (compare_with_excel [] [⟨"A", "123", "m"⟩]).2.length = 1)
    ∧ ("A", "123") ∈ (compare_with_excel [("123", ⟨"A", "m", 0⟩)] [⟨"A", "123", "m"⟩]).1
    ∧ ("A", "123", "Message or name changed")
        ∈ (compare_with_excel [("123", ⟨"A", "m", 0⟩)] [⟨"A", "123", "m2"⟩]).2
    ∧ ("A", "123", "Not in progress file")
        ∈ (compare_with_excel [] [⟨"A", "123", "m2"⟩]).2 := by
  refine ⟨c6_reconcile_classification.1 [] [Row.mk "A" "123" "m"], ?_, ?_, ?_⟩
  · have h := c6_reconcile_classification.2.1 [("123", ⟨"A", "m", 0⟩)]
      [Row.mk "A" "123" "m"] (Row.mk "A" "123" "m") (List.mem_singleton.mpr rfl)
      ⟨"A", "m", 0⟩ (by decide) (by decide) rfl
    simpa using h
  · have h := c6_reconcile_classification.2.2.1 [("123", ⟨"A", "m", 0⟩)]
      [Row.mk "A" "123" "m2"] (Row.mk "A" "123" "m2") (List.mem_singleton.mpr rfl)
      ⟨"A", "m", 0⟩ (by decide) (by decide)
    simpa using h
  · have h := c6_reconcile_classification.2.2.2 []
      [Row.mk "A" "123" "m2"] (Row.mk "A" "123" "m2") (List.mem_singleton.mpr rfl) rfl
    simpa using h

/-- Claim C7: recording an item with `save_progress` and loading the store
back yields a checkpoint record under the item's normalized key whose
`name`, `message` and `index` equal the recorded ones exactly, and a
subsequent `compare_with_excel` on just that item reports it as a match
(with no mismatch). -/
theorem c7_checkpoint_roundtrip (progress : List (String × Rec)) (idx : Nat) (row : Row) :
    lookupA (clean_phone_number row.mobilePhone)
        (load_progress (some (save_progress progress idx (mainName row.firstName)
          (clean_phone_number row.mobilePhone) row.message)))
      = some ⟨mainName row.firstName, row.message, idx⟩
    ∧ compare_with_excel (save_progress progress idx (mainName row.firstName)
          (clean_phone_number row.mobilePhone) row.message) [row]
      = ([(pyStrip row.firstName, clean_phone_number row.mobilePhone)], []) := by
  constructor
  · exact lookupA_dinsert_self _ _ _
  · have hl : lookupA (clean_phone_number row.mobilePhone)
        (save_progress progress idx (mainName row.firstName)
          (clean_phone_number row.mobilePhone) row.message)
        = some ⟨mainName row.firstName, row.message, idx⟩ :=
      lookupA_dinsert_self _ _ _
    simp only [compare_with_excel, hl]
    rw [if_pos ⟨mainName_eq_pyStrip row.firstName, trivial⟩]

/-- Events issued by the primary (clipboard) path of `send_message`, as
opposed to the exception-triggered fallback method. -/
def isPrimaryEv : MEv → Bool
  | .setClip _ => true
  | .paste _ => true
  | .typeLine _ fb => !fb
  | .typeChar _ _ => false
  | .newline _ fb => !fb
  | .submit fb => !fb

/-- The events performed by one `PrStep`. -/
def PrStep.trace : PrStep → List (MEv × Bool)
  | .ok t => t
  | .failed t => t
  | .raised t => t

theorem charLoop_mem (env : MsgEnv) (i : Nat) :
    ∀ (cs : List Char) (j : Nat) (e : MEv) (r : Bool),
      (e, r) ∈ charLoop env i cs j → ∃ j', e = .typeChar i j' := by
  intro cs
  induction cs with
  | nil => intro j e r h; cases h
  | cons c t ih =>
    intro j e r h
    rcases List.mem_cons.mp h with h | h
    · exact ⟨j, congrArg Prod.fst h⟩
    · exact ih (j + 1) e r h

theorem fbLine_mem (env : MsgEnv) (i : Nat) (line : String) (e : MEv) (r : Bool)
    (h : (e, r) ∈ fbLine env i line) :
    e = .typeLine i true ∨ ∃ j, e = .typeChar i j := by
  simp only [fbLine] at h
  split at h
  · cases h
  · split at h
    · rw [List.mem_singleton] at h
      exact Or.inl (congrArg Prod.fst h)
    · rcases List.mem_cons.mp h with h | h
      · exact Or.inl (congrArg Prod.fst h)
      · exact Or.inr (charLoop_mem env i line.data 0 e r h)

theorem fbLine_char_imp (env : MsgEnv) (i i' j : Nat) (line : String) (r : Bool)
    (h : (MEv.typeChar i j, r) ∈ fbLine env i' line) :
    (MEv.typeLine i true, false) ∈ fbLine env i' line := by
  have hidx : i = i' := by
    rcases fbLine_mem env i' line _ r h with h' | ⟨j', h'⟩
    · cases h'
    · cases h'; rfl
  subst hidx
  simp only [fbLine] at h ⊢
  split at h
  · cases h
  · rename_i hne
    rw [if_neg hne]
    split at h
    · rw [List.mem_singleton] at h
      cases h
    · rename_i hact
      have hact' : env.act (MEv.typeLine i true) = false := by
        revert hact
        cases env.act (MEv.typeLine i true) <;> simp
      rw [if_neg (by simp [hact'])]
      rw [hact']
      exact List.mem_cons_self _ _

theorem fbLine_noChar_of_true (env : MsgEnv) (i i' j : Nat) (line : String) (r : Bool)
    (hact : env.act (MEv.typeLine i' true) = true) :
    (MEv.typeChar i j, r) ∉ fbLine env i' line := by
  intro h
  simp only [fbLine, hact, if_true] at h
  split at h
  · cases h
  · rw [List.mem_singleton] at h
    cases h

theorem fbLoop_mem_shape (env : MsgEnv) :
    ∀ (ls : List String) (k : Nat) (e : MEv) (r : Bool),
      (e, r) ∈ (fbLoop env ls k).2 →
      e = .submit true ∨ ∃ m, k ≤ m ∧
        (e = .typeLine m true ∨ (∃ j, e = .typeChar m j) ∨ e = .newline m true) := by
  intro ls
  induction ls with
  | nil =>
    intro k e r h
    simp only [fbLoop] at h
    rw [List.mem_singleton] at h
    exact Or.inl (congrArg Prod.fst h)
  | cons line rest ih =>
    intro k e r h
    simp only [fbLoop] at h
    split at h
    · rcases List.mem_append.mp h with h | h
      · rcases fbLine_mem env k line e r h with h' | ⟨j, h'⟩
        · exact Or.inr ⟨k, le_rfl, Or.inl h'⟩
        · exact Or.inr ⟨k, le_rfl, Or.inr (Or.inl ⟨j, h'⟩)⟩
      · rw [List.mem_singleton] at h
        exact Or.inl (congrArg Prod.fst h)
    · split at h
      · rcases List.mem_append.mp h with h | h
        · rcases fbLine_mem env k line e r h with h' | ⟨j, h'⟩
          · exact Or.inr ⟨k, le_rfl, Or.inl h'⟩
          · exact Or.inr ⟨k, le_rfl, Or.inr (Or.inl ⟨j, h'⟩)⟩
        · rcases List.mem_cons.mp h with h | h
          · exact Or.inr ⟨k, le_rfl, Or.inr (Or.inr (congrArg Prod.fst h))⟩
          · rcases ih (k + 1) e r h with h' | ⟨m, hm, h'⟩
            · exact Or.inl h'
            · exact Or.inr ⟨m, by omega, h'⟩
      · rcases List.mem_append.mp h with h | h
        · rcases fbLine_mem env k line e r h with h' | ⟨j, h'⟩
          · exact Or.inr ⟨k, le_rfl, Or.inl h'⟩
          · exact Or.inr ⟨k, le_rfl, Or.inr (Or.inl ⟨j, h'⟩)⟩
        · rw [List.mem_singleton] at h
          exact Or.inr ⟨k, le_rfl, Or.inr (Or.inr (congrArg Prod.fst h))⟩

theorem fbLoop_mem_notPrimary (env : MsgEnv) (ls : List String) (k : Nat)
    (e : MEv) (r : Bool) (h : (e, r) ∈ (fbLoop env ls k).2) :
    isPrimaryEv e = false := by
  rcases fbLoop_mem_shape env ls k e r h with h' | ⟨m, _, h' | ⟨j, h'⟩ | h'⟩ <;>
    subst h' <;> rfl

theorem fbLoop_char_imp (env : MsgEnv) :
    ∀ (ls : List String) (k i j : Nat) (r : Bool),
      (MEv.typeChar i j, r) ∈ (fbLoop env ls k).2 →
      (MEv.typeLine i true, false) ∈ (fbLoop env ls k).2 := by
  intro ls
  induction ls with
  | nil =>
    intro k i j r h
    simp only [fbLoop] at h
    rw [List.mem_singleton] at h
    cases h
  | cons line rest ih =>
    intro k i j r h
    simp only [fbLoop] at h ⊢
    split at h
    · rcases List.mem_append.mp h with h | h
      · rw [if_pos (by assumption)]
        exact List.mem_append_left _ (fbLine_char_imp env i k j line r h)
      · rw [List.mem_singleton] at h
        cases h
    · split at h
      · rcases List.mem_append.mp h with h | h
        · rw [if_neg (by assumption), if_pos (by assumption)]
          exact List.mem_append_left _ (fbLine_char_imp env i k j line r h)
        · rcases List.mem_cons.mp h with h | h
          · cases h
          · rw [if_neg (by assumption), if_pos (by assumption)]
            exact List.mem_append_right _ (List.mem_cons_of_mem _ (ih (k + 1) i j r h))
      · rcases List.mem_append.mp h with h | h
        · rw [if_neg (by assumption), if_neg (by assumption)]
          exact List.mem_append_left _ (fbLine_char_imp env i k j line r h)
        · rw [List.mem_singleton] at h
          cases h

theorem fbLine_lineTrue_act (env : MsgEnv) (i i' : Nat) (line : String) (b : Bool)
    (h : (MEv.typeLine i true, b) ∈ fbLine env i' line) :
    i = i' ∧ env.act (MEv.typeLine i' true) = b := by
  simp only [fbLine] at h
  split at h
  · cases h
  · split at h
    · rw [List.mem_singleton] at h
      injection h with h1 h2
      injection h1 with hi
      exact ⟨hi, h2.symm⟩
    · rcases List.mem_cons.mp h with h | h
      · injection h with h1 h2
        injection h1 with hi
        exact ⟨hi, h2.symm⟩
      · exfalso
        rcases charLoop_mem env i' line.data 0 _ b h with ⟨j', hj⟩
        cases hj

theorem fbLoop_noChar_of_true (env : MsgEnv) :
    ∀ (ls : List String) (k i j : Nat) (r : Bool),
      (MEv.typeLine i true, true) ∈ (fbLoop env ls k).2 →
      (MEv.typeChar i j, r) ∉ (fbLoop env ls k).2 := by
  intro ls
  induction ls with
  | nil =>
    intro k i j r hT hC
    simp only [fbLoop] at hT
    rw [List.mem_singleton] at hT
    cases hT
  | cons line rest ih =>
    intro k i j r hT hC
    simp only [fbLoop] at hT hC
    by_cases hre : rest.isEmpty = true
    · rw [if_pos hre] at hT hC
      rcases List.mem_append.mp hT with hT1 | hT1
      · obtain ⟨hik, hact⟩ := fbLine_lineTrue_act env i k line true hT1
        rcases List.mem_append.mp hC with hC1 | hC1
        · exact fbLine_noChar_of_true env i k j line r hact hC1
        · rw [List.mem_singleton] at hC1; cases hC1
      · rw [List.mem_singleton] at hT1; cases hT1
    · rw [if_neg hre] at hT hC
      by_cases hrn : env.act (MEv.newline k true) = true
      · rw [if_pos hrn] at hT hC
        rcases List.mem_append.mp hT with hT1 | hT1
        · obtain ⟨hik, hact⟩ := fbLine_lineTrue_act env i k line true hT1
          rcases List.mem_append.mp hC with hC1 | hC1
          · exact fbLine_noChar_of_true env i k j line r hact hC1
          · rcases List.mem_cons.mp hC1 with hC2 | hC2
            · cases hC2
            · rcases fbLoop_mem_shape env rest (k + 1) _ r hC2 with hs | ⟨m, hm, hs⟩
              · cases hs
              · rcases hs with hs | ⟨j', hs⟩ | hs
                · cases hs
                · injection hs with h1 h2
                  omega
                · cases hs
        · rcases List.mem_cons.mp hT1 with hT2 | hT2
          · cases hT2
          · have hik : k + 1 ≤ i := by
              rcases fbLoop_mem_shape env rest (k + 1) _ true hT2 with hs | ⟨m, hm, hs⟩
              · cases hs
              · rcases hs with hs | ⟨j', hs⟩ | hs
                · injection hs with h1 h2
                  omega
                · cases hs
                · cases hs
            rcases List.mem_append.mp hC with hC1 | hC1
            · have hTl := fbLine_char_imp env i k j line r hC1
              obtain ⟨hik2, _⟩ := fbLine_lineTrue_act env i k line false hTl
              omega
            · rcases List.mem_cons.mp hC1 with hC2 | hC2
              · cases hC2
              · exact ih (k + 1) i j r hT2 hC2
      · rw [if_neg hrn] at hT hC
        rcases List.mem_append.mp hT with hT1 | hT1
        · obtain ⟨hik, hact⟩ := fbLine_lineTrue_act env i k line true hT1
          rcases List.mem_append.mp hC with hC1 | hC1
          · exact fbLine_noChar_of_true env i k j line r hact hC1
          · rw [List.mem_singleton] at hC1; cases hC1
        · rw [List.mem_singleton] at hT1; cases hT1

theorem prLine_shape (env : MsgEnv) (i : Nat) (line : String) :
    prLine env i line = .ok []
    ∨ prLine env i line = .ok [(.setClip i, true), (.paste i, true)]
    ∨ prLine env i line =
        .ok [(.setClip i, true), (.paste i, false), (.typeLine i false, true)]
    ∨ prLine env i line =
        .failed [(.setClip i, true), (.paste i, false), (.typeLine i false, false)]
    ∨ prLine env i line = .raised [(.setClip i, false)] := by
  simp only [prLine]
  by_cases h0 : pyStrip line = ""
  · rw [if_pos h0]; exact Or.inl rfl
  · rw [if_neg h0]
    by_cases hs : env.scr i = true
    · rw [if_pos hs, hs]
      by_cases hp : env.act (MEv.paste i) = true
      · rw [if_pos hp, hp]
        exact Or.inr (Or.inl rfl)
      · have hp' : env.act (MEv.paste i) = false := by
          revert hp; cases env.act (MEv.paste i) <;> simp
        rw [if_neg hp, hp']
        by_cases hl : env.act (MEv.typeLine i false) = true
        · rw [if_pos hl, hl]
          exact Or.inr (Or.inr (Or.inl rfl))
        · have hl' : env.act (MEv.typeLine i false) = false := by
            revert hl; cases env.act (MEv.typeLine i false) <;> simp
          rw [if_neg hl, hl']
          exact Or.inr (Or.inr (Or.inr (Or.inl rfl)))
    · have hs' : env.scr i = false := by
        revert hs; cases env.scr i <;> simp
      rw [if_neg hs, hs']
      exact Or.inr (Or.inr (Or.inr (Or.inr rfl)))

theorem prLoop_cases (env : MsgEnv) (all : List String) :
    ∀ (ls : List String) (i : Nat),
      (∀ e r, (e, r) ∈ (prLoop env all ls i).2 → isPrimaryEv e = true)
      ∨ (∃ pre, (prLoop env all ls i).2 = pre ++ (fbLoop env all 0).2
          ∧ ∀ e r, (e, r) ∈ pre → isPrimaryEv e = true) := by
  intro ls
  induction ls with
  | nil =>
    intro i
    left
    intro e r h
    simp only [prLoop] at h
    rw [List.mem_singleton] at h
    cases h; rfl
  | cons line rest ih =>
    intro i
    have hoknext : ∀ t, prLine env i line = PrStep.ok t →
        (∀ e r, (e, r) ∈ t → isPrimaryEv e = true) →
        (∀ e r, (e, r) ∈ (prLoop env all (line :: rest) i).2 → isPrimaryEv e = true)
        ∨ (∃ pre, (prLoop env all (line :: rest) i).2 = pre ++ (fbLoop env all 0).2
            ∧ ∀ e r, (e, r) ∈ pre → isPrimaryEv e = true) := by
      intro t hok ht
      simp only [prLoop, hok]
      by_cases hre : rest.isEmpty = true
      · rw [if_pos hre]
        left
        intro e r h
        rcases List.mem_append.mp h with h | h
        · exact ht e r h
        · rw [List.mem_singleton] at h; cases h; rfl
      · rw [if_neg hre]
        by_cases hrn : env.act (MEv.newline i false) = true
        · rw [if_pos hrn]
          rcases ih (i + 1) with hL | ⟨pre, hpre, hp⟩
          · left
            intro e r h
            rcases List.mem_append.mp h with h | h
            · exact ht e r h
            · rcases List.mem_cons.mp h with h | h
              · cases h; rfl
              · exact hL e r h
          · right
            refine ⟨t ++ (MEv.newline i false, env.act (MEv.newline i false)) :: pre,
              ?_, ?_⟩
            · rw [hpre]
              simp [List.append_assoc]
            · intro e r h
              rcases List.mem_append.mp h with h | h
              · exact ht e r h
              · rcases List.mem_cons.mp h with h | h
                · cases h; rfl
                · exact hp e r h
        · rw [if_neg hrn]
          left
          intro e r h
          rcases List.mem_append.mp h with h | h
          · exact ht e r h
          · rw [List.mem_singleton] at h; cases h; rfl
    rcases prLine_shape env i line with hsh | hsh | hsh | hsh | hsh
    · exact hoknext [] hsh (fun e r h => absurd h (List.not_mem_nil _))
    · refine hoknext _ hsh ?_
      intro e r h
      rcases List.mem_cons.mp h with h | h
      · cases h; rfl
      · rw [List.mem_singleton] at h; cases h; rfl
    · refine hoknext _ hsh ?_
      intro e r h
      rcases List.mem_cons.mp h with h | h
      · cases h; rfl
      · rcases List.mem_cons.mp h with h | h
        · cases h; rfl
        · rw [List.mem_singleton] at h; cases h; rfl
    · simp only [prLoop, hsh]
      left
      intro e r h
      rcases List.mem_cons.mp h with h | h
      · cases h; rfl
      · rcases List.mem_cons.mp h with h | h
        · cases h; rfl
        · rw [List.mem_singleton] at h; cases h; rfl
    · simp only [prLoop, hsh]
      right
      refine ⟨[(.setClip i, false)], rfl, ?_⟩
      intro e r h
      rw [List.mem_singleton] at h; cases h; rfl

theorem prLoop_paste_first (env : MsgEnv) (all : List String) :
    ∀ (ls : List String) (k i : Nat) (r : Bool),
      (MEv.typeLine i false, r) ∈ (prLoop env all ls k).2 →
      (MEv.paste i, false) ∈ (prLoop env all ls k).2 := by
  intro ls
  induction ls with
  | nil =>
    intro k i r h
    simp only [prLoop] at h
    rw [List.mem_singleton] at h
    cases h
  | cons line rest ih =>
    intro k i r h
    have hoknext : ∀ t, prLine env k line = PrStep.ok t →
        ((MEv.typeLine i false, r) ∈ t → (MEv.paste i, false) ∈ t) →
        (∀ e b, (e, b) ∈ t → ∃ m, e = MEv.setClip m ∨ e = MEv.paste m
          ∨ e = MEv.typeLine m false) →
        (MEv.paste i, false) ∈ (prLoop env all (line :: rest) k).2 := by
      intro t hok hpaste _
      simp only [prLoop, hok] at h ⊢
      by_cases hre : rest.isEmpty = true
      · rw [if_pos hre] at h ⊢
        rcases List.mem_append.mp h with h | h
        · exact List.mem_append_left _ (hpaste h)
        · rw [List.mem_singleton] at h; cases h
      · rw [if_neg hre] at h ⊢
        by_cases hrn : env.act (MEv.newline k false) = true
        · rw [if_pos hrn] at h ⊢
          rcases List.mem_append.mp h with h | h
          · exact List.mem_append_left _ (hpaste h)
          · rcases List.mem_cons.mp h with h | h
            · cases h
            · exact List.mem_append_right _
                (List.mem_cons_of_mem _ (ih (k + 1) i r h))
        · rw [if_neg hrn] at h ⊢
          rcases List.mem_append.mp h with h | h
          · exact List.mem_append_left _ (hpaste h)
          · rw [List.mem_singleton] at h; cases h
    rcases prLine_shape env k line with hsh | hsh | hsh | hsh | hsh
    · exact hoknext [] hsh (fun h' => absurd h' (List.not_mem_nil _))
        (fun e b h' => absurd h' (List.not_mem_nil _))
    · refine hoknext _ hsh ?_ ?_
      · intro h'
        rcases List.mem_cons.mp h' with h' | h'
        · cases h'
        · rw [List.mem_singleton] at h'; cases h'
      · intro e b h'
        rcases List.mem_cons.mp h' with h' | h'
        · cases h'; exact ⟨k, Or.inl rfl⟩
        · rw [List.mem_singleton] at h'; cases h'; exact ⟨k, Or.inr (Or.inl rfl)⟩
    · refine hoknext _ hsh ?_ ?_
      · intro h'
        rcases List.mem_cons.mp h' with h' | h'
        · cases h'
        · rcases List.mem_cons.mp h' with h' | h'
          · cases h'
          · rw [List.mem_singleton] at h'
            injection h' with h1 h2
            injection h1 with hi
            subst hi
            exact List.mem_cons_of_mem _ (List.mem_cons_self _ _)
      · intro e b h'
        rcases List.mem_cons.mp h' with h' | h'
        · cases h'; exact ⟨k, Or.inl rfl⟩
        · rcases List.mem_cons.mp h' with h' | h'
          · cases h'; exact ⟨k, Or.inr (Or.inl rfl)⟩
          · rw [List.mem_singleton] at h'; cases h'
            exact ⟨k, Or.inr (Or.inr rfl)⟩
    · simp only [prLoop, hsh] at h ⊢
      rcases List.mem_cons.mp h with h | h
      · cases h
      · rcases List.mem_cons.mp h with h | h
        · cases h
        · rw [List.mem_singleton] at h
          injection h with h1 h2
          injection h1 with hi
          subst hi
          exact List.mem_cons_of_mem _ (List.mem_cons_self _ _)
    · simp only [prLoop, hsh] at h ⊢
      rcases List.mem_cons.mp h with h | h
      · cases h
      · exfalso
        have := fbLoop_mem_notPrimary env all 0 _ r h
        simp [isPrimaryEv] at this

/-- A message-body environment in which the clipboard-copy script raises and
every element interaction succeeds. -/
def envScriptRaises : MsgEnv := ⟨fun _ => true, fun _ => false⟩

/-- A message-body environment in which the clipboard-copy script raises,
the fallback full-line injection fails and every character injection fails,
while line breaks and the final Enter succeed. -/
def envCharsFail : MsgEnv :=
  ⟨fun e => match e with
    | .typeLine _ true => false
    | .typeChar _ _ => false
    | _ => true,
   fun _ => false⟩

/-- A message-body environment in which the clipboard script succeeds but
the paste fails, and the full-line injection succeeds. -/
def envPasteFails : MsgEnv :=
  ⟨fun e => match e with
    | .paste _ => false
    | _ => true,
   fun _ => true⟩

/-- Claim C8 counterexample: when the clipboard-copy `execute_script` for
line 0 raises, the whole message is delivered by the exception-triggered
fallback method, which never attempts a paste: the non-empty line `"Hi"` is
delivered (overall success) by a direct full-line injection with no clipboard
paste event anywhere in the trace — contradicting "a clipboard paste is
attempted first" for every non-empty line. -/
theorem c8_counterexample :
    send_message_lines envScriptRaises ["Hi"] =
      (true, [(MEv.setClip 0, false), (MEv.typeLine 0 true, true),
        (MEv.submit true, true)])
    ∧ pyStrip "Hi" ≠ ""
    ∧ ((send_message_lines envScriptRaises ["Hi"]).2.all
        (fun p => match p.1 with | MEv.paste _ => false | _ => true)) = true := by
  refine ⟨by decide, by decide, by decide⟩

/-- Claim C8 (amended): in the primary clipboard path a full-line injection
for a line happens only after the paste for that line failed; a
character-by-character injection for a line happens only in the
exception-triggered fallback method and only after the fallback's full-line
injection of that line failed; a fallback full-line injection that succeeds
prevents any character-level call for that line; and character-level
failures do not abort the delivery (a run whose character injections all
fail still submits successfully).  If the clipboard script raises, the
fallback delivers the whole message without pasting. -/
theorem c8_fallback_ordering :
    (∀ (env : MsgEnv) (ls : List String) (i j : Nat) (r : Bool),
      (MEv.typeChar i j, r) ∈ (send_message_lines env ls).2 →
      (MEv.typeLine i true, false) ∈ (send_message_lines env ls).2)
    ∧ (∀ (env : MsgEnv) (ls : List String) (i j : Nat) (r : Bool),
      (MEv.typeLine i true, true) ∈ (send_message_lines env ls).2 →
      (MEv.typeChar i j, r) ∉ (send_message_lines env ls).2)
    ∧ (∀ (env : MsgEnv) (ls : List String) (i : Nat) (r : Bool),
      (MEv.typeLine i false, r) ∈ (send_message_lines env ls).2 →
      (MEv.paste i, false) ∈ (send_message_lines env ls).2)
    ∧ send_message_lines envCharsFail ["ab"] =
      (true, [(MEv.setClip 0, false), (MEv.typeLine 0 true, false),
        (MEv.typeChar 0 0, false), (MEv.typeChar 0 1, false),
        (MEv.submit true, true)]) := by
  refine ⟨?_, ?_, ?_, by decide⟩
  · intro env ls i j r h
    rcases prLoop_cases env ls ls 0 with hL | ⟨pre, hpre, hp⟩
    · have := hL _ _ h
      simp [isPrimaryEv] at this
    · rw [show send_message_lines env ls = prLoop env ls ls 0 from rfl, hpre] at h ⊢
      rcases List.mem_append.mp h with h | h
      · have := hp _ _ h
        simp [isPrimaryEv] at this
      · exact List.mem_append_right _ (fbLoop_char_imp env ls 0 i j r h)
  · intro env ls i j r hT hC
    rcases prLoop_cases env ls ls 0 with hL | ⟨pre, hpre, hp⟩
    · have := hL _ _ hT
      simp [isPrimaryEv] at this
    · rw [show send_message_lines env ls = prLoop env ls ls 0 from rfl, hpre] at hT hC
      rcases List.mem_append.mp hT with hT1 | hT1
      · have := hp _ _ hT1
        simp [isPrimaryEv] at this
      · rcases List.mem_append.mp hC with hC1 | hC1
        · have := hp _ _ hC1
          simp [isPrimaryEv] at this
        · exact fbLoop_noChar_of_true env ls 0 i j r hT1 hC1
  · intro env ls i r h
    exact prLoop_paste_first env ls ls 0 i r h

/-- Witness for C8 (amended): the ordering conjuncts applied at concrete
runs — in the all-characters-fail run, the character call for line 0 is
preceded by a failed fallback full-line call; in the script-raising run with
a successful fallback full-line injection no character call occurs; in the
paste-failing run the full-line injection is preceded by the failed
paste. -/
theorem c8_witness :
    (MEv.typeLine 0 true, false) ∈ (send_message_lines envCharsFail ["ab"]).2
    ∧ (MEv.typeChar 0 0, true) ∉ (send_message_lines envScriptRaises ["Hi"]).2
    ∧ (MEv.paste 0, false) ∈ (send_message_lines envPasteFails ["Hi"]).2 :=
  ⟨c8_fallback_ordering.1 envCharsFail ["ab"] 0 0 false (by decide),
   c8_fallback_ordering.2.1 envScriptRaises ["Hi"] 0 0 true (by decide),
   c8_fallback_ordering.2.2.1 envPasteFails ["Hi"] 0 true (by decide)⟩

/-- Claim C9 counterexample: the source's `clean_phone_number` maps
`"0020 100 1234"` to `"201001234"`, not to the claimed `"+201001234"` — the
function never introduces a plus sign. -/
theorem c9_counterexample :
    clean_phone_number "0020 100 1234" = "201001234"
    ∧ clean_phone_number "0020 100 1234" ≠ "+201001234" := by
  constructor <;> decide

/-- Claim C9 (amended): normalization keeps only digits and plus signs and
strips leading zeros (after the country-code prefix when the input starts
with a plus); the input `"0020 100 1234"` normalizes to `"201001234"` — no
plus sign is added. -/
theorem c9_amended :
    (∀ (number : String) (c : Char), c ∈ (clean_phone_number number).data →
      (c.isDigit = true ∨ c = '+'))
    ∧ clean_phone_number "0020 100 1234" = "201001234" := by
  constructor
  · intro number c hc
    have key : ∀ x ∈ number.data.filter (fun ch => ch.isDigit || ch = '+'),
        (x : Char).isDigit = true ∨ x = '+' := by
      intro x hx
      have hp := List.of_mem_filter hx
      simpa [Bool.or_eq_true, decide_eq_true_eq] using hp
    have hc' : c ∈ cleanPhoneCore (number.data.filter (fun ch => ch.isDigit || ch = '+')) := hc
    set L := number.data.filter (fun ch => ch.isDigit || ch = '+') with hL
    have sub : c ∈ L := by
      unfold cleanPhoneCore at hc'
      split at hc'
      · split at hc'
        · rcases List.mem_append.mp hc' with h | h
          · exact List.take_subset _ _ h
          · exact List.drop_subset _ _ (mem_of_mem_dropWhileP _ _ _ h)
        · exact hc'
      · exact mem_of_mem_dropWhileP _ _ _ hc'
    exact key c sub
  · decide

/-- Witness for C9 (amended): applied at the concrete input, every output
character is a digit or a plus. -/
theorem c9_witness :
    ('2' : Char).isDigit = true ∨ ('2' : Char) = '+' :=
  c9_amended.1 "0020 100 1234" '2' (by decide)
